import Mathlib

set_option maxRecDepth 8000

/-!
Shallow embedding of the Logistics-Agent simulator core
(`src/models/location.py`, `src/models/package.py`, `src/models/driver.py`,
`src/agents/driver_agent.py`, `src/agents/dispatcher.py`,
`src/environment/simulator.py`, `src/tools/routing_engine.py`).

Python floats are modelled as exact rationals.  The haversine distance
(`Location.haversine_distance_m`), being float trigonometry, is kept as an
explicit function parameter `hav : Location → Location → ℚ` of every
operation that calls it; all control flow, state updates and arithmetic
around it are translated literally from the source.
-/

namespace Logistics

/-- `src/models/location.py`: `Location(lat, lon, address=None)`.
`created_at`-style wall-clock data does not appear on locations. -/
structure Location where
  lat : ℚ
  lon : ℚ
  address : Option String := none
deriving DecidableEq, Repr, Inhabited

/-- `src/models/package.py`: `PackageStatus` enum. -/
inductive PackageStatus
  | PENDING
  | ASSIGNED
  | IN_TRANSIT
  | DELIVERED
deriving DecidableEq, Repr, Inhabited

/-- `src/models/package.py`: the `Package` model.  The `created_at`
timestamp is wall-clock plumbing irrelevant to every operation here and is
omitted; the remaining fields and defaults follow the source. -/
structure Package where
  id : String
  pickup : Location
  dropoff : Location
  assigned_to : Option String := none
  status : PackageStatus := .PENDING
  priority : Int := 1
deriving DecidableEq, Repr, Inhabited

/-- `Package.mark_assigned(driver_id)`: unconditionally sets both fields
(the source performs no state check and cannot raise). -/
def Package.mark_assigned (p : Package) (driver_id : String) : Package :=
  { p with assigned_to := some driver_id, status := .ASSIGNED }

/-- `Package.mark_in_transit()`: unconditionally sets the status. -/
def Package.mark_in_transit (p : Package) : Package :=
  { p with status := .IN_TRANSIT }

/-- `Package.mark_delivered()`: unconditionally sets the status. -/
def Package.mark_delivered (p : Package) : Package :=
  { p with status := .DELIVERED }

/-- A call to one of the three `mark_*` mutators of `Package`. -/
inductive MarkOp
  | massign (driver_id : String)
  | mtransit
  | mdeliver
deriving DecidableEq, Repr

/-- Apply one mutator call. -/
def applyMark (p : Package) : MarkOp → Package
  | .massign d => p.mark_assigned d
  | .mtransit => p.mark_in_transit
  | .mdeliver => p.mark_delivered

/-- Apply a sequence of mutator calls, left to right. -/
def applyMarks (p : Package) (ops : List MarkOp) : Package :=
  ops.foldl applyMark p

/-- Position of a status along PENDING → ASSIGNED → IN_TRANSIT → DELIVERED. -/
def statusRank : PackageStatus → Nat
  | .PENDING => 0
  | .ASSIGNED => 1
  | .IN_TRANSIT => 2
  | .DELIVERED => 3

/-- The source state each mutator is documented to require (spec §4.2). -/
def markSource : MarkOp → PackageStatus
  | .massign _ => .PENDING
  | .mtransit => .ASSIGNED
  | .mdeliver => .IN_TRANSIT

/-- One direction of the spec's assignment invariant: a non-null
`assigned_to` only occurs in a post-PENDING status. -/
def assignedConsistent (p : Package) : Prop :=
  p.assigned_to ≠ none →
    (p.status = .ASSIGNED ∨ p.status = .IN_TRANSIT ∨ p.status = .DELIVERED)

instance (p : Package) : Decidable (assignedConsistent p) := by
  unfold assignedConsistent
  infer_instance

/-- `src/models/driver.py`: `DriverStatus` enum. -/
inductive DriverStatus
  | IDLE
  | EN_ROUTE
  | DELIVERING
deriving DecidableEq, Repr, Inhabited

/-- `src/models/driver.py`: the `Driver` model. -/
structure Driver where
  id : String
  location : Location
  status : DriverStatus := .IDLE
  assigned_packages : List Package := []
  route : Option (List Location) := none
  speed_mps : Option ℚ := none
deriving DecidableEq, Repr, Inhabited

/-- `src/config.py`: `settings.DRIVER_SPEED_MPS = 10.0`. -/
def DRIVER_SPEED_MPS : ℚ := 10

/-- Python `x or d` on an optional float: `None` and `0.0` are falsy. -/
def pyOr (v : Option ℚ) (d : ℚ) : ℚ :=
  match v with
  | none => d
  | some s => if s = 0 then d else s

/-- `src/agents/driver_agent.py`: `DriverAgent` state — the wrapped
`Driver` model plus `_cursor`, `_route`, `_packages`. -/
structure DriverAgent where
  driver : Driver
  cursor : Nat := 0
  route : Option (List Location) := none
  packages : List Package := []
deriving DecidableEq, Repr, Inhabited

/-- `DriverAgent.__init__(id, start_location)`. -/
def mkDriverAgent (id : String) (start_location : Location) : DriverAgent :=
  { driver :=
      { id := id, location := start_location, status := .IDLE,
        speed_mps := some DRIVER_SPEED_MPS },
    cursor := 0, route := none, packages := [] }

/-- The idle branch of `DriverAgent.tick`: `if status != IDLE: status = IDLE`. -/
def DriverAgent.idleReset (a : DriverAgent) : DriverAgent :=
  if a.driver.status ≠ .IDLE then
    { a with driver := { a.driver with status := .IDLE } }
  else a

/-- `DriverAgent.tick(dt_seconds)`.  `hav` stands for
`Location.haversine_distance_m`.  `not self._route` is Python truthiness:
true for both `None` and the empty list.  In the moving branch the cursor
is in bounds, so `getD` returns the actual waypoint `route[cursor]`. -/
def DriverAgent.tick (hav : Location → Location → ℚ) (dt_seconds : ℚ)
    (a : DriverAgent) : DriverAgent :=
  match a.route with
  | none => a.idleReset
  | some r =>
    if r = [] ∨ r.length ≤ a.cursor then a.idleReset
    else
      let target := r.getD a.cursor a.driver.location
      let dist := hav a.driver.location target
      let step := (pyOr a.driver.speed_mps DRIVER_SPEED_MPS) * dt_seconds
      if step ≥ dist ∨ dist < 1 then
        { a with driver := { a.driver with location := target },
                 cursor := a.cursor + 1 }
      else
        let f := step / dist
        { a with driver :=
            { a.driver with location :=
                { lat := a.driver.location.lat + (target.lat - a.driver.location.lat) * f,
                  lon := a.driver.location.lon + (target.lon - a.driver.location.lon) * f } } }

/-- `DriverAgent.assign_route(route, packages)`. -/
def DriverAgent.assign_route (a : DriverAgent) (route : List Location)
    (packages : List Package) : DriverAgent :=
  { a with route := some route, cursor := 0, packages := packages,
           driver := { a.driver with status := .EN_ROUTE } }

/-- `DriverAgent.clear_route()`. -/
def DriverAgent.clear_route (a : DriverAgent) : DriverAgent :=
  { a with route := none, cursor := 0, packages := [],
           driver := { a.driver with status := .IDLE } }

/-- Number of route waypoints not yet reached. -/
def DriverAgent.remaining (a : DriverAgent) : Nat :=
  match a.route with
  | none => 0
  | some r => r.length - a.cursor

/-- `n` consecutive calls to `DriverAgent.tick` with the same `dt`. -/
def DriverAgent.ticks (hav : Location → Location → ℚ) (dt : ℚ) :
    Nat → DriverAgent → DriverAgent
  | 0, a => a
  | n + 1, a => (DriverAgent.ticks hav dt n a).tick hav dt

/-- The driver position after `k` arrivals on route `ws` started at
`start`: the start itself for `k = 0`, else waypoint `k - 1`. -/
def pathPrev (start : Location) (ws : List Location) : Nat → Location
  | 0 => start
  | i + 1 => ws.getD i start

/-- The agent state reached from `a0` after assigning route `ws` and
completing `k` arrival ticks. -/
def enRouteState (a0 : DriverAgent) (ws : List Location)
    (pkgs : List Package) (k : Nat) : DriverAgent :=
  { driver :=
      { a0.driver with
          status := .EN_ROUTE
          location := pathPrev a0.driver.location ws k },
    cursor := k, route := some ws, packages := pkgs }

/-- A public operation on a `DriverAgent`. -/
inductive AgentOp
  | assign (ws : List Location) (pkgs : List Package)
  | clear
  | tickOp (dt : ℚ)

/-- Apply one public operation. -/
def applyAgentOp (hav : Location → Location → ℚ) (a : DriverAgent) :
    AgentOp → DriverAgent
  | .assign ws pkgs => a.assign_route ws pkgs
  | .clear => a.clear_route
  | .tickOp dt => a.tick hav dt

/-- Apply a sequence of public operations, left to right. -/
def applyAgentOps (hav : Location → Location → ℚ) (a : DriverAgent)
    (ops : List AgentOp) : DriverAgent :=
  ops.foldl (applyAgentOp hav) a

/-- Restriction of an operation sequence: `assign_route` only with a
non-empty waypoint list. -/
def opRoutesNonEmpty : AgentOp → Prop
  | .assign ws _ => ws ≠ []
  | .clear => True
  | .tickOp _ => True

instance (op : AgentOp) : Decidable (opRoutesNonEmpty op) := by
  cases op <;> unfold opRoutesNonEmpty <;> infer_instance

/-- The spec's claimed driver invariant (both directions). -/
def driverInv (a : DriverAgent) : Prop :=
  (a.driver.status = .IDLE ↔ a.remaining = 0) ∧
  (a.driver.status = .EN_ROUTE ↔ 1 ≤ a.remaining)

instance (a : DriverAgent) : Decidable (driverInv a) := by
  unfold driverInv
  infer_instance

/-- The directions of the driver invariant that the code maintains:
IDLE implies no remaining waypoint, and a remaining waypoint implies
EN_ROUTE.  (EN_ROUTE with zero remaining occurs transiently.) -/
def driverInvHolds (a : DriverAgent) : Prop :=
  (a.driver.status = .IDLE → a.remaining = 0) ∧
  (1 ≤ a.remaining → a.driver.status = .EN_ROUTE)

instance (a : DriverAgent) : Decidable (driverInvHolds a) := by
  unfold driverInvHolds
  infer_instance

/-- Stable insertion of `x` into a list sorted by `key`: before the first
element of larger-or-equal key, so equal keys keep their original order —
the behaviour of Python's stable `list.sort(key=...)`. -/
def insertByKey (key : Nat → ℚ) (x : Nat) : List Nat → List Nat
  | [] => [x]
  | y :: ys => if key x ≤ key y then x :: y :: ys else y :: insertByKey key x ys

/-- Stable sort by key (insertion sort), modelling `list.sort(key=...)`. -/
def sortByKey (key : Nat → ℚ) : List Nat → List Nat
  | [] => []
  | x :: xs => insertByKey key x (sortByKey key xs)

/-- The per-driver loop of `DispatcherAgent._tick`, over the simulator's
driver list.  `pkgs` is the authoritative package list (`sim.packages`);
`pending` holds the indices of the still-pending snapshot packages, the
Python `packages` working list (indices model object identity).  A
non-IDLE driver is skipped; an empty pending pool breaks the loop; else
the pending pool is sorted by haversine pickup distance, its head is
popped, the driver gets route `[driver_loc, pickup, dropoff]` and the
package is marked assigned.  (The two `get_route` calls are discarded by
the source and have no state effect.) -/
def assignLoop (hav : Location → Location → ℚ) :
    List DriverAgent → List Package → List Nat → List DriverAgent × List Package
  | [], pkgs, _ => ([], pkgs)
  | d :: ds, pkgs, pending =>
    if d.driver.status ≠ .IDLE then
      let rest := assignLoop hav ds pkgs pending
      (d :: rest.1, rest.2)
    else if pending.isEmpty then (d :: ds, pkgs)
    else
      match sortByKey (fun i => hav d.driver.location (pkgs.getD i default).pickup) pending with
      | [] => (d :: ds, pkgs)
      | j :: restPending =>
        let pkg := pkgs.getD j default
        let d2 := d.assign_route [d.driver.location, pkg.pickup, pkg.dropoff] [pkg]
        let pkgs2 := pkgs.set j (pkg.mark_assigned d.driver.id)
        let rest := assignLoop hav ds pkgs2 restPending
        (d2 :: rest.1, rest.2)

/-- The world state a `DispatcherAgent._tick` reads and writes:
the simulator's driver agents and packages. -/
structure SimState where
  drivers : List DriverAgent
  packages : List Package
deriving Repr

/-- `DispatcherAgent._tick`: snapshot, filter IDLE drivers and PENDING
packages, return unchanged if either is empty, else run the assignment
loop over the simulator's drivers. -/
def dispatcherTick (hav : Location → Location → ℚ) (s : SimState) : SimState :=
  let idleDrivers := s.drivers.filter fun d => decide (d.driver.status = .IDLE)
  let pendingIdx := (List.range s.packages.length).filter fun i =>
    decide ((s.packages.getD i default).status = .PENDING)
  if idleDrivers.isEmpty ∨ pendingIdx.isEmpty then s
  else
    let r := assignLoop hav s.drivers s.packages pendingIdx
    { drivers := r.1, packages := r.2 }

/-- The haversine/11.11 fallback matrix of
`RoutingEngine.get_duration_matrix`: zero diagonal, off-diagonal
`hav(p_i, p_j) / 11.11` (11.11 = 1111/100 exactly in the source text). -/
def fallbackMatrix (hav : Location → Location → ℚ) (points : List Location) :
    List (List ℚ) :=
  (List.range points.length).map fun i =>
    (List.range points.length).map fun j =>
      if i = j then 0
      else hav (points.getD i default) (points.getD j default) / (1111 / 100)

/-- `RoutingEngine.get_duration_matrix(points)`.  `tableResult` is the
outcome of the OSRM table call: `some durations` when the HTTP call
succeeds with a truthy `durations` field, `none` when the call raises or
the field is missing/falsy — in which case the source falls back. -/
def get_duration_matrix (hav : Location → Location → ℚ)
    (tableResult : Option (List (List ℚ))) (points : List Location) :
    List (List ℚ) :=
  if points.length < 2 then [[0]]
  else
    match tableResult with
    | some durations => durations
    | none => fallbackMatrix hav points

/-- One driver advance inside `EnvironmentSimulator._tick`:
`try: await d.tick(...) except Exception: log` — on an exception the
driver keeps its state; otherwise it takes the new state.  `tickFn` is
the possibly-raising coroutine `d.tick(self._tick_seconds)`. -/
def advanceDriver (tickFn : DriverAgent → Except String DriverAgent)
    (d : DriverAgent) : DriverAgent :=
  match tickFn d with
  | .ok d2 => d2
  | .error _ => d

/-- `EnvironmentSimulator._tick`: every driver in the list is advanced,
each inside its own try/except. -/
def simulatorTick (tickFn : DriverAgent → Except String DriverAgent)
    (ds : List DriverAgent) : List DriverAgent :=
  ds.map (advanceDriver tickFn)

/-! Concrete inputs used by witnesses and counterexamples.  `havW` is a
concrete symmetric stand-in for the float haversine distance (squared
euclidean distance on coordinates), used where a claim needs an explicit
evaluable metric. -/

/-- Concrete location at the origin. -/
def wLoc0 : Location := { lat := 0, lon := 0 }

/-- Concrete location at (1, 1); `havW wLoc0 wLoc1 = 2`. -/
def wLoc1 : Location := { lat := 1, lon := 1 }

/-- Concrete location at (2, 2); `havW wLoc0 wLoc2 = 8`. -/
def wLoc2 : Location := { lat := 2, lon := 2 }

/-- Concrete symmetric distance function standing in for haversine. -/
def havW : Location → Location → ℚ := fun p q =>
  (p.lat - q.lat) * (p.lat - q.lat) + (p.lon - q.lon) * (p.lon - q.lon)

/-- Concrete fresh package. -/
def wPkg : Package := { id := "pkg_1", pickup := wLoc0, dropoff := wLoc1 }

/-- Concrete pending package with pickup at distance 2 from `wLoc0`. -/
def wPkgA : Package := { id := "pkg_A", pickup := wLoc1, dropoff := wLoc2 }

/-- Concrete pending package with pickup at distance 8 from `wLoc0`. -/
def wPkgB : Package := { id := "pkg_B", pickup := wLoc2, dropoff := wLoc1 }

/-- Concrete freshly constructed idle agent at the origin. -/
def wAgent0 : DriverAgent := mkDriverAgent "d1" wLoc0

/-- Concrete en-route agent used by the motion witness. -/
def wAgentR : DriverAgent :=
  { driver := { id := "d1", location := wLoc0, status := .EN_ROUTE,
                speed_mps := some 10 },
    cursor := 0, route := some [wLoc1], packages := [] }

/-- Concrete one-waypoint route. -/
def wRoute1 : List Location := [wLoc1]

/-- Concrete driver advance that raises exactly for driver id "bad". -/
def wTickFn : DriverAgent → Except String DriverAgent := fun d =>
  if d.driver.id = "bad" then .error "boom"
  else .ok (d.clear_route)

/-- Concrete faulty driver. -/
def wBadAgent : DriverAgent := mkDriverAgent "bad" wLoc2

/-! ## Theorems -/

/-- C3 counterexample: `mark_assigned` called a second time with a
different driver id does not leave `assigned_to` unchanged (and the
source method is total, so it raises nothing): after
`mark_assigned("d1"); mark_assigned("d2")` the field holds `"d2"`. -/
theorem C3_counterexample_second_assign_overwrites :
    ¬ ((wPkg.mark_assigned "d1").mark_assigned "d2").assigned_to =
      (wPkg.mark_assigned "d1").assigned_to := by
  decide

/-- C3 amended: `mark_assigned` performs no state validation at all —
from every starting state it unconditionally overwrites `assigned_to`
with the new driver id and sets the status to ASSIGNED; neither of the
spec's two policies (reject or keep unchanged) is implemented. -/
theorem C3_mark_assigned_unconditional (p : Package) (d : String) :
    (p.mark_assigned d).assigned_to = some d ∧
    (p.mark_assigned d).status = .ASSIGNED :=
  ⟨rfl, rfl⟩

/-- C5 counterexample: the sequence `mark_in_transit; mark_assigned`
moves the status backward, from IN_TRANSIT (rank 2) to ASSIGNED
(rank 1), so monotonicity under arbitrary call sequences fails. -/
theorem C5_counterexample_backward_transition :
    ¬ statusRank (applyMarks wPkg [.mtransit, .massign "d1"]).status ≥
      statusRank (applyMarks wPkg [.mtransit]).status := by
  decide

/-- C5 amended: the mark methods enforce nothing themselves; the status
moves forward exactly one stage per call only when each mark is invoked
from its documented source state (PENDING for `mark_assigned`, ASSIGNED
for `mark_in_transit`, IN_TRANSIT for `mark_delivered`). -/
theorem C5_guarded_marks_advance_one_stage (p : Package) (op : MarkOp)
    (h : p.status = markSource op) :
    statusRank (applyMark p op).status = statusRank p.status + 1 := by
  cases op <;>
    simp only [applyMark, Package.mark_assigned, Package.mark_in_transit,
      Package.mark_delivered, markSource] at h ⊢ <;>
    rw [h] <;> rfl

/-- C5 witness: a fresh PENDING package assigned from its source state
advances exactly one stage. -/
theorem C5_guarded_marks_advance_one_stage_witness :
    wPkg.status = markSource (.massign "d1") ∧
    statusRank (applyMark wPkg (.massign "d1")).status = statusRank wPkg.status + 1 :=
  ⟨rfl, C5_guarded_marks_advance_one_stage wPkg (.massign "d1") rfl⟩

/-- C6 counterexample: `mark_in_transit` on a fresh package yields status
IN_TRANSIT with `assigned_to` still null, so the claimed equivalence
between a non-null `assigned_to` and a post-PENDING status is false. -/
theorem C6_counterexample_transit_without_assignee :
    ¬ ((applyMarks wPkg [.mtransit]).assigned_to ≠ none ↔
      ((applyMarks wPkg [.mtransit]).status = .ASSIGNED ∨
        (applyMarks wPkg [.mtransit]).status = .IN_TRANSIT ∨
        (applyMarks wPkg [.mtransit]).status = .DELIVERED)) := by
  decide

/-- Any single mark call lands the package in a post-PENDING status, so
the one-directional assignment invariant survives every call. -/
theorem assignedConsistent_applyMark (p : Package) (op : MarkOp) :
    assignedConsistent (applyMark p op) := by
  cases op <;> intro hne <;>
    simp [applyMark, Package.mark_assigned, Package.mark_in_transit,
      Package.mark_delivered]

/-- The one-directional assignment invariant is preserved by any
sequence of mark calls. -/
theorem assignedConsistent_applyMarks (ops : List MarkOp) :
    ∀ p : Package, assignedConsistent p → assignedConsistent (applyMarks p ops) := by
  induction ops with
  | nil => exact fun p h => h
  | cons op rest ih =>
    intro p h
    have h2 := assignedConsistent_applyMark p op
    simpa [applyMarks, List.foldl] using ih (applyMark p op) h2

/-- C6 amended: only one direction of the invariant holds — starting
from a package with null `assigned_to`, after any sequence of mark calls
a non-null `assigned_to` implies a post-PENDING status.  The converse
fails (see the counterexample). -/
theorem C6_assigned_only_if_post_pending (p : Package) (ops : List MarkOp)
    (h : p.assigned_to = none) :
    (applyMarks p ops).assigned_to ≠ none →
      ((applyMarks p ops).status = .ASSIGNED ∨
        (applyMarks p ops).status = .IN_TRANSIT ∨
        (applyMarks p ops).status = .DELIVERED) :=
  assignedConsistent_applyMarks ops p (fun hne => absurd h hne)

/-- C6 witness: a freshly created package, assigned then set in transit,
has a non-null assignee and a post-PENDING status. -/
theorem C6_assigned_only_if_post_pending_witness :
    wPkg.assigned_to = none ∧
    ((applyMarks wPkg [.massign "d1", .mtransit]).assigned_to ≠ none →
      ((applyMarks wPkg [.massign "d1", .mtransit]).status = .ASSIGNED ∨
        (applyMarks wPkg [.massign "d1", .mtransit]).status = .IN_TRANSIT ∨
        (applyMarks wPkg [.massign "d1", .mtransit]).status = .DELIVERED)) :=
  ⟨rfl, C6_assigned_only_if_post_pending wPkg [.massign "d1", .mtransit] rfl⟩

/-- C10: `assign_route` does not validate its waypoint list — an empty
list still yields status EN_ROUTE with route `[]` and cursor 0, and the
first subsequent tick (Python `not self._route` is true for `[]`) resets
the status to IDLE without moving the driver. -/
theorem C10_assign_route_empty_list (hav : Location → Location → ℚ)
    (dt : ℚ) (a : DriverAgent) :
    (a.assign_route [] []).driver.status = .EN_ROUTE ∧
    (a.assign_route [] []).route = some [] ∧
    (a.assign_route [] []).cursor = 0 ∧
    ((a.assign_route [] []).tick hav dt).driver.status = .IDLE ∧
    ((a.assign_route [] []).tick hav dt).driver.location = a.driver.location := by
  refine ⟨rfl, rfl, rfl, ?_, ?_⟩ <;>
    simp [DriverAgent.tick, DriverAgent.assign_route, DriverAgent.idleReset]

/-- C7: one tick of a driver with a current waypoint `target = route[cursor]`
computes `dist = hav(location, target)` and `step = speed * dt`; on
`step ≥ dist` or `dist < 1` it snaps the location to the waypoint and
advances the cursor, otherwise it linearly interpolates both coordinates
by `f = step / dist` and leaves the cursor unchanged. -/
theorem C7_tick_motion_semantics (hav : Location → Location → ℚ) (dt : ℚ)
    (a : DriverAgent) (r : List Location) (target : Location)
    (hroute : a.route = some r) (hcur : a.cursor < r.length)
    (htarget : r.get ⟨a.cursor, hcur⟩ = target) :
    ((pyOr a.driver.speed_mps DRIVER_SPEED_MPS) * dt ≥ hav a.driver.location target ∨
        hav a.driver.location target < 1 →
      a.tick hav dt =
        { a with driver := { a.driver with location := target },
                 cursor := a.cursor + 1 }) ∧
    (¬ ((pyOr a.driver.speed_mps DRIVER_SPEED_MPS) * dt ≥ hav a.driver.location target ∨
        hav a.driver.location target < 1) →
      a.tick hav dt =
        { a with driver :=
            { a.driver with location :=
                { lat := a.driver.location.lat + (target.lat - a.driver.location.lat) *
                    ((pyOr a.driver.speed_mps DRIVER_SPEED_MPS) * dt /
                      hav a.driver.location target)
                  lon := a.driver.location.lon + (target.lon - a.driver.location.lon) *
                    ((pyOr a.driver.speed_mps DRIVER_SPEED_MPS) * dt /
                      hav a.driver.location target)
                  address := none } } }) := by
  have hne : ¬ (r = [] ∨ r.length ≤ a.cursor) := by
    rintro (h1 | h2)
    · subst h1; simp at hcur
    · omega
  have hget : r.getD a.cursor a.driver.location = target := by
    rw [List.getD_eq_getElem _ _ hcur]
    simpa using htarget
  constructor <;> intro hcond
  · simp only [DriverAgent.tick, hroute, if_neg hne, hget, if_pos hcond]
  · simp only [DriverAgent.tick, hroute, if_neg hne, hget, if_neg hcond]

/-- C7 witness: a concrete en-route driver one large step from its only
waypoint arrives there and its cursor advances. -/
theorem C7_tick_motion_semantics_witness :
    wAgentR.route = some [wLoc1] ∧
    (pyOr wAgentR.driver.speed_mps DRIVER_SPEED_MPS) * 1 ≥
      havW wAgentR.driver.location wLoc1 ∧
    wAgentR.tick havW 1 =
      { wAgentR with driver := { wAgentR.driver with location := wLoc1 },
                     cursor := 1 } := by
  refine ⟨rfl, by with_unfolding_all decide, ?_⟩
  exact (C7_tick_motion_semantics havW 1 wAgentR [wLoc1] wLoc1 rfl (by decide) rfl).1
    (Or.inl (by with_unfolding_all decide))

/-- `assign_route` lands the agent exactly in the en-route state with
zero completed arrivals. -/
theorem assign_route_eq_enRouteState (a0 : DriverAgent) (ws : List Location)
    (pkgs : List Package) :
    a0.assign_route ws pkgs = enRouteState a0 ws pkgs 0 :=
  rfl

/-- One tick from the en-route state after `k < L` arrivals, with enough
travel budget for the current leg, performs the next arrival. -/
theorem tick_enRouteState (hav : Location → Location → ℚ) (dt : ℚ)
    (a0 : DriverAgent) (ws : List Location) (pkgs : List Package) (k : Nat)
    (hk : k < ws.length)
    (hstep : hav (pathPrev a0.driver.location ws k) (ws.getD k a0.driver.location) ≤
      (pyOr a0.driver.speed_mps DRIVER_SPEED_MPS) * dt) :
    (enRouteState a0 ws pkgs k).tick hav dt = enRouteState a0 ws pkgs (k + 1) := by
  have hne : ¬ (ws = [] ∨ ws.length ≤ k) := by
    rintro (h1 | h2)
    · subst h1; simp at hk
    · omega
  have hget : ws.getD k (pathPrev a0.driver.location ws k) =
      ws.getD k a0.driver.location := by
    rw [List.getD_eq_getElem _ _ hk, List.getD_eq_getElem _ _ hk]
  simp only [DriverAgent.tick, enRouteState, hget, if_neg hne]
  rw [if_pos (Or.inl hstep)]
  rfl

/-- Iterating the tick through the first `k ≤ L` arrivals. -/
theorem ticks_enRouteState (hav : Location → Location → ℚ) (dt : ℚ)
    (a0 : DriverAgent) (ws : List Location) (pkgs : List Package)
    (H : ∀ i, i < ws.length →
      hav (pathPrev a0.driver.location ws i) (ws.getD i a0.driver.location) ≤
        (pyOr a0.driver.speed_mps DRIVER_SPEED_MPS) * dt) :
    ∀ k, k ≤ ws.length →
      DriverAgent.ticks hav dt k (enRouteState a0 ws pkgs 0) =
        enRouteState a0 ws pkgs k := by
  intro k
  induction k with
  | zero => intro _; rfl
  | succ n ih =>
    intro hk
    have hlt : n < ws.length := hk
    simp only [DriverAgent.ticks]
    rw [ih (Nat.le_of_succ_le hk), tick_enRouteState hav dt a0 ws pkgs n hlt (H n hlt)]

/-- C2 counterexample: one idle driver at the origin, route of L = 1
waypoint, travel budget `10 * 100 = 1000` far above the leg distance 2 —
the claimed premise holds, yet after exactly L = 1 ticks the status is
still EN_ROUTE, not IDLE (it only becomes IDLE on tick L + 1). -/
theorem C2_counterexample_not_idle_after_L_ticks :
    havW (pathPrev wAgent0.driver.location wRoute1 0)
        (wRoute1.getD 0 wAgent0.driver.location) ≤
      (pyOr wAgent0.driver.speed_mps DRIVER_SPEED_MPS) * 100 ∧
    wRoute1.length = 1 ∧
    (DriverAgent.ticks havW 100 1 (wAgent0.assign_route wRoute1 [])).driver.location =
      wLoc1 ∧
    ¬ (DriverAgent.ticks havW 100 1 (wAgent0.assign_route wRoute1 [])).driver.status =
      .IDLE := by
  refine ⟨by with_unfolding_all decide, rfl, ?_, ?_⟩ <;> with_unfolding_all decide

/-- C2 corrected: with sufficient per-tick budget for every leg, after
exactly L ticks the driver stands on the last waypoint with the cursor
exhausted but its status still EN_ROUTE; the status returns to IDLE one
tick later (tick L + 1), with the location unchanged. -/
theorem C2_route_completion_corrected (hav : Location → Location → ℚ) (dt : ℚ)
    (a0 : DriverAgent) (ws : List Location) (pkgs : List Package) (hws : ws ≠ [])
    (H : ∀ i, i < ws.length →
      hav (pathPrev a0.driver.location ws i) (ws.getD i a0.driver.location) ≤
        (pyOr a0.driver.speed_mps DRIVER_SPEED_MPS) * dt) :
    (DriverAgent.ticks hav dt ws.length (a0.assign_route ws pkgs)).driver.location =
      ws.getLast hws ∧
    (DriverAgent.ticks hav dt ws.length (a0.assign_route ws pkgs)).cursor = ws.length ∧
    (DriverAgent.ticks hav dt ws.length (a0.assign_route ws pkgs)).driver.status =
      .EN_ROUTE ∧
    (DriverAgent.ticks hav dt (ws.length + 1) (a0.assign_route ws pkgs)).driver.status =
      .IDLE ∧
    (DriverAgent.ticks hav dt (ws.length + 1) (a0.assign_route ws pkgs)).driver.location =
      ws.getLast hws := by
  obtain ⟨m, hm⟩ : ∃ m, ws.length = m + 1 := by
    refine ⟨ws.length - 1, ?_⟩
    have := List.length_pos.mpr hws
    omega
  have hfin : DriverAgent.ticks hav dt ws.length (a0.assign_route ws pkgs) =
      enRouteState a0 ws pkgs ws.length := by
    rw [assign_route_eq_enRouteState]
    exact ticks_enRouteState hav dt a0 ws pkgs H ws.length le_rfl
  have hlast : pathPrev a0.driver.location ws ws.length = ws.getLast hws := by
    rw [hm, List.getLast_eq_getElem]
    show ws.getD m a0.driver.location = _
    rw [List.getD_eq_getElem _ _ (by omega)]
    congr 1
    omega
  have hstep : DriverAgent.ticks hav dt (ws.length + 1) (a0.assign_route ws pkgs) =
      (enRouteState a0 ws pkgs ws.length).tick hav dt := by
    simp only [DriverAgent.ticks]
    rw [hfin]
  have hexh : (enRouteState a0 ws pkgs ws.length).tick hav dt =
      (enRouteState a0 ws pkgs ws.length).idleReset := by
    simp only [DriverAgent.tick, enRouteState]
    rw [if_pos (Or.inr le_rfl)]
  refine ⟨?_, ?_, ?_, ?_, ?_⟩
  · rw [hfin]; exact hlast
  · rw [hfin]; rfl
  · rw [hfin]; rfl
  · rw [hstep, hexh]; rfl
  · rw [hstep, hexh]; exact hlast

/-- C2 witness: a driver at the origin with the single-waypoint route
`[wLoc1]` and budget `1000` per tick reaches the waypoint after 1 tick
(still EN_ROUTE) and is IDLE there after 2 ticks. -/
theorem C2_route_completion_corrected_witness :
    wRoute1 ≠ [] ∧
    (DriverAgent.ticks havW 100 wRoute1.length (wAgent0.assign_route wRoute1 [])).driver.location =
      wRoute1.getLast (by decide) ∧
    (DriverAgent.ticks havW 100 (wRoute1.length + 1) (wAgent0.assign_route wRoute1 [])).driver.status =
      .IDLE := by
  have h := C2_route_completion_corrected havW 100 wAgent0 wRoute1 [] (by decide)
    (by
      intro i hi
      have hi0 : i = 0 := by simpa [wRoute1] using hi
      subst hi0
      with_unfolding_all decide)
  exact ⟨by decide, h.1, h.2.2.2.1⟩

/-- C4 counterexample: assign a one-waypoint route at the driver's own
location (distance 0, an arrival) and tick once — the cursor passes the
end of the route, 0 waypoints remain, yet the status is still EN_ROUTE, so
the claimed two-way invariant fails after a public operation. -/
theorem C4_counterexample_transient_en_route :
    opRoutesNonEmpty (.assign [wLoc0] []) ∧
    ¬ driverInv (applyAgentOps havW wAgent0 [.assign [wLoc0] [], .tickOp 1]) := by
  constructor
  · simp [opRoutesNonEmpty]
  · with_unfolding_all decide

/-- A freshly constructed agent satisfies the weakened invariant. -/
theorem driverInvHolds_mk (id : String) (loc : Location) :
    driverInvHolds (mkDriverAgent id loc) := by
  constructor <;> simp [mkDriverAgent, DriverAgent.remaining]

/-- `assign_route` establishes the weakened invariant (any waypoint list:
the status becomes EN_ROUTE and both implications hold). -/
theorem driverInvHolds_assign (a : DriverAgent) (ws : List Location)
    (pkgs : List Package) :
    driverInvHolds (a.assign_route ws pkgs) := by
  constructor
  · intro h
    simp [DriverAgent.assign_route] at h
  · intro _
    rfl

/-- `clear_route` establishes the weakened invariant. -/
theorem driverInvHolds_clear (a : DriverAgent) :
    driverInvHolds a.clear_route := by
  constructor <;> simp [DriverAgent.clear_route, DriverAgent.remaining]

/-- The idle-reset branch keeps the weakened invariant whenever no
waypoint remains. -/
theorem driverInvHolds_idleReset (a : DriverAgent) (h : a.remaining = 0) :
    driverInvHolds a.idleReset := by
  unfold DriverAgent.idleReset
  split
  · constructor
    · intro _
      simpa [DriverAgent.remaining] using h
    · intro hge
      rw [show ({ a with driver := { a.driver with status := .IDLE } } : DriverAgent).remaining
          = a.remaining from rfl, h] at hge
      omega
  · constructor
    · intro _; exact h
    · intro hge
      rw [h] at hge
      omega

/-- One tick preserves the weakened invariant. -/
theorem driverInvHolds_tick (hav : Location → Location → ℚ) (dt : ℚ)
    (a : DriverAgent) (h : driverInvHolds a) :
    driverInvHolds (a.tick hav dt) := by
  obtain ⟨h1, h2⟩ := h
  rcases hr : a.route with _ | r
  · have hrem : a.remaining = 0 := by simp [DriverAgent.remaining, hr]
    simpa only [DriverAgent.tick, hr] using driverInvHolds_idleReset a hrem
  · simp only [DriverAgent.tick, hr]
    by_cases hc : r = [] ∨ r.length ≤ a.cursor
    · rw [if_pos hc]
      refine driverInvHolds_idleReset a ?_
      have : r.length ≤ a.cursor ∨ r.length = 0 := by
        rcases hc with h1 | h2
        · right; simp [h1]
        · left; exact h2
      simp only [DriverAgent.remaining, hr]
      omega
    · rw [if_neg hc]
      push_neg at hc
      have hcur : a.cursor < r.length := hc.2
      have hrem : 1 ≤ a.remaining := by
        simp only [DriverAgent.remaining, hr]
        omega
      have hEN : a.driver.status = .EN_ROUTE := h2 hrem
      split
      · constructor
        · intro hidle
          rw [show ({ a with
                driver := { a.driver with location := r.getD a.cursor a.driver.location },
                cursor := a.cursor + 1 } : DriverAgent).driver.status
              = a.driver.status from rfl, hEN] at hidle
          cases hidle
        · intro _
          exact hEN
      · constructor
        · intro hidle
          rw [show (∀ loc, ({ a with
                driver := { a.driver with location := loc } } : DriverAgent).driver.status
              = a.driver.status) from fun _ => rfl] at hidle
          rw [hEN] at hidle
          cases hidle
        · intro _
          exact hEN

/-- The weakened invariant survives any operation sequence. -/
theorem driverInvHolds_applyAgentOps (hav : Location → Location → ℚ)
    (ops : List AgentOp) :
    ∀ a : DriverAgent, driverInvHolds a → driverInvHolds (applyAgentOps hav a ops) := by
  induction ops with
  | nil => exact fun a h => h
  | cons op rest ih =>
    intro a h
    have h2 : driverInvHolds (applyAgentOp hav a op) := by
      cases op with
      | assign ws pkgs => exact driverInvHolds_assign a ws pkgs
      | clear => exact driverInvHolds_clear a
      | tickOp dt => exact driverInvHolds_tick hav dt a h
    simpa [applyAgentOps, List.foldl] using ih (applyAgentOp hav a op) h2

/-- C4 corrected: from a freshly constructed agent, after any sequence of
public operations, IDLE implies no remaining waypoint and a remaining
waypoint implies EN_ROUTE; the converse direction is violated transiently
right after the tick that consumes the final waypoint (see the
counterexample), until the next tick resets the status. -/
theorem C4_driver_invariant_corrected (hav : Location → Location → ℚ)
    (id : String) (loc : Location) (ops : List AgentOp) :
    ((applyAgentOps hav (mkDriverAgent id loc) ops).driver.status = .IDLE →
      (applyAgentOps hav (mkDriverAgent id loc) ops).remaining = 0) ∧
    (1 ≤ (applyAgentOps hav (mkDriverAgent id loc) ops).remaining →
      (applyAgentOps hav (mkDriverAgent id loc) ops).driver.status = .EN_ROUTE) :=
  driverInvHolds_applyAgentOps hav ops (mkDriverAgent id loc) (driverInvHolds_mk id loc)

/-- Each position of the simulator tick result depends only on the
driver at that position. -/
theorem simulatorTick_getD (tickFn : DriverAgent → Except String DriverAgent)
    (ds : List DriverAgent) (j : Nat) (hj : j < ds.length) :
    (simulatorTick tickFn ds).getD j default =
      advanceDriver tickFn (ds.getD j default) := by
  have hj2 : j < (simulatorTick tickFn ds).length := by
    simpa [simulatorTick] using hj
  rw [List.getD_eq_getElem _ _ hj2, List.getD_eq_getElem _ _ hj]
  simp [simulatorTick]

/-- Mapping commutes with removing the element at an index. -/
theorem map_eraseIdx (f : DriverAgent → DriverAgent) :
    ∀ (l : List DriverAgent) (i : Nat), (l.eraseIdx i).map f = (l.map f).eraseIdx i := by
  intro l
  induction l with
  | nil => intro i; simp
  | cons x xs ih =>
    intro i
    cases i with
    | zero => simp [List.eraseIdx]
    | succ n => simp [List.eraseIdx, ih n]

/-- C8: in one simulator tick every driver is advanced inside its own
try/except — if advancing driver `i` raises, that driver keeps its state,
every other driver is still advanced, and each ends in exactly the state
it would reach in a tick of the fleet without the faulty driver. -/
theorem C8_simulator_tick_isolation (tickFn : DriverAgent → Except String DriverAgent)
    (ds : List DriverAgent) (i : Nat) (hi : i < ds.length)
    (herr : ∃ msg, tickFn (ds.getD i default) = .error msg) :
    (∀ j, j < ds.length →
      (simulatorTick tickFn ds).getD j default =
        advanceDriver tickFn (ds.getD j default)) ∧
    (simulatorTick tickFn ds).getD i default = ds.getD i default ∧
    simulatorTick tickFn (ds.eraseIdx i) = (simulatorTick tickFn ds).eraseIdx i := by
  refine ⟨fun j hj => simulatorTick_getD tickFn ds j hj, ?_, ?_⟩
  · obtain ⟨msg, hmsg⟩ := herr
    rw [simulatorTick_getD tickFn ds i hi]
    unfold advanceDriver
    rw [hmsg]
  · exact map_eraseIdx _ ds i

/-- C8 witness: a two-driver fleet where the second driver's advance
raises — the first driver still advances, the second keeps its state,
and the tick agrees with the one-driver fleet. -/
theorem C8_simulator_tick_isolation_witness :
    (∃ msg, wTickFn ([wAgent0, wBadAgent].getD 1 default) = .error msg) ∧
    (∀ j, j < [wAgent0, wBadAgent].length →
      (simulatorTick wTickFn [wAgent0, wBadAgent]).getD j default =
        advanceDriver wTickFn ([wAgent0, wBadAgent].getD j default)) ∧
    (simulatorTick wTickFn [wAgent0, wBadAgent]).getD 1 default =
      [wAgent0, wBadAgent].getD 1 default ∧
    simulatorTick wTickFn ([wAgent0, wBadAgent].eraseIdx 1) =
      (simulatorTick wTickFn [wAgent0, wBadAgent]).eraseIdx 1 := by
  have herr : ∃ msg, wTickFn ([wAgent0, wBadAgent].getD 1 default) = .error msg :=
    ⟨"boom", by with_unfolding_all rfl⟩
  have h := C8_simulator_tick_isolation wTickFn [wAgent0, wBadAgent] 1 (by decide) herr
  exact ⟨herr, h.1, h.2.1, h.2.2⟩

/-- C9: `get_duration_matrix` returns the 1×1 zero matrix for fewer than
2 points; when the table call fails it returns the n×n fallback with zero
diagonal and `hav(p_i, p_j) / 11.11` off the diagonal — in particular for
2 points a symmetric 2×2 matrix (haversine being symmetric, assumed of
the distance parameter as `hsym`). -/
theorem C9_duration_matrix_fallback (hav : Location → Location → ℚ)
    (tableResult : Option (List (List ℚ))) (points : List Location)
    (p0 p1 : Location) (hsym : hav p1 p0 = hav p0 p1) :
    (points.length < 2 → get_duration_matrix hav tableResult points = [[0]]) ∧
    (2 ≤ points.length →
      (get_duration_matrix hav none points).length = points.length ∧
      (∀ i, i < points.length →
        ((get_duration_matrix hav none points).getD i []).length = points.length) ∧
      (∀ i j, i < points.length → j < points.length →
        ((get_duration_matrix hav none points).getD i []).getD j 0 =
          if i = j then 0
          else hav (points.getD i default) (points.getD j default) / (1111 / 100))) ∧
    get_duration_matrix hav none [p0, p1] =
      [[0, hav p0 p1 / (1111 / 100)], [hav p0 p1 / (1111 / 100), 0]] := by
  refine ⟨?_, ?_, ?_⟩
  · intro h
    simp [get_duration_matrix, h]
  · intro h2
    have hnlt : ¬ points.length < 2 := by omega
    refine ⟨?_, ?_, ?_⟩
    · simp [get_duration_matrix, hnlt, fallbackMatrix]
    · intro i hi
      have hi2 : i < (get_duration_matrix hav none points).length := by
        simpa [get_duration_matrix, hnlt, fallbackMatrix] using hi
      rw [List.getD_eq_getElem _ _ hi2]
      simp [get_duration_matrix, hnlt, fallbackMatrix]
    · intro i j hi hj
      have hi2 : i < (get_duration_matrix hav none points).length := by
        simpa [get_duration_matrix, hnlt, fallbackMatrix] using hi
      rw [List.getD_eq_getElem _ _ hi2]
      have hj2 : j < ((get_duration_matrix hav none points)[i]).length := by
        simpa [get_duration_matrix, hnlt, fallbackMatrix] using hj
      rw [List.getD_eq_getElem _ _ hj2]
      simp [get_duration_matrix, hnlt, fallbackMatrix]
  · simp [get_duration_matrix, fallbackMatrix, List.range_succ, hsym]

/-- C9 witness: with the concrete symmetric metric, 2 points produce the
symmetric fallback matrix and a single point the 1×1 zero matrix even
with a successful table result available. -/
theorem C9_duration_matrix_fallback_witness :
    havW wLoc1 wLoc0 = havW wLoc0 wLoc1 ∧
    get_duration_matrix havW none [wLoc0, wLoc1] =
      [[0, havW wLoc0 wLoc1 / (1111 / 100)], [havW wLoc0 wLoc1 / (1111 / 100), 0]] ∧
    get_duration_matrix havW (some [[5]]) [wLoc0] = [[0]] := by
  have h := C9_duration_matrix_fallback havW (some [[5]]) [wLoc0] wLoc0 wLoc1
    (by with_unfolding_all decide)
  exact ⟨by with_unfolding_all decide, h.2.2, h.1 (by decide)⟩

/-- C1: a world of one IDLE driver and two PENDING packages whose pickups
lie at strictly different distances — one dispatcher tick assigns exactly
the nearer package to that driver (status ASSIGNED, `assigned_to` the
driver's id) and leaves the farther one untouched (still PENDING),
whichever order the two packages appear in. -/
theorem C1_dispatcher_assigns_nearest (hav : Location → Location → ℚ)
    (a : DriverAgent) (p q : Package)
    (ha : a.driver.status = .IDLE)
    (hp : p.status = .PENDING) (hq : q.status = .PENDING)
    (hnear : hav a.driver.location p.pickup < hav a.driver.location q.pickup) :
    (dispatcherTick hav { drivers := [a], packages := [p, q] }).packages =
      [p.mark_assigned a.driver.id, q] ∧
    (dispatcherTick hav { drivers := [a], packages := [q, p] }).packages =
      [q, p.mark_assigned a.driver.id] ∧
    (p.mark_assigned a.driver.id).status = .ASSIGNED ∧
    (p.mark_assigned a.driver.id).assigned_to = some a.driver.id := by
  have hle := le_of_lt hnear
  have hnle := not_le.mpr hnear
  refine ⟨?_, ?_, rfl, rfl⟩ <;>
    simp [dispatcherTick, assignLoop, sortByKey, insertByKey, List.range_succ,
      ha, hp, hq, hle, hnle]

/-- C1 witness: driver at the origin, pickups at squared distances 2 and
8 — in both input orders the nearer package `wPkgA` is the one assigned. -/
theorem C1_dispatcher_assigns_nearest_witness :
    wAgent0.driver.status = .IDLE ∧
    wPkgA.status = .PENDING ∧ wPkgB.status = .PENDING ∧
    havW wAgent0.driver.location wPkgA.pickup < havW wAgent0.driver.location wPkgB.pickup ∧
    (dispatcherTick havW { drivers := [wAgent0], packages := [wPkgA, wPkgB] }).packages =
      [wPkgA.mark_assigned wAgent0.driver.id, wPkgB] ∧
    (dispatcherTick havW { drivers := [wAgent0], packages := [wPkgB, wPkgA] }).packages =
      [wPkgB, wPkgA.mark_assigned wAgent0.driver.id] := by
  have h := C1_dispatcher_assigns_nearest havW wAgent0 wPkgA wPkgB rfl rfl rfl
    (by with_unfolding_all decide)
  exact ⟨rfl, rfl, rfl, by with_unfolding_all decide, h.1, h.2.1⟩

end Logistics
